import Mathlib

/-!
# Verification of the RedisClient repository

Shallow embedding of `src/RedisClient.js` and `src/lib/configUtils.js`
(the unnamed source parts) in Lean 4, together with theorems settling the
frozen claims about the natural-language specification.

Conventions used throughout:

* JavaScript promise outcomes are embedded as `Except ε α`: `Except.ok`
  is a fulfilled promise, `Except.error` a rejected one.  A function that
  can throw synchronously or reject asynchronously is modelled by a
  single `Except` outcome, because every call site in the source awaits
  the value inside a `try` block, where the two behave identically.
* Side effects that the claims observe (lock acquisition attempts,
  release attempts, callback invocations, logger calls) are recorded in
  an explicit event trace, returned next to the value.
* The logger collaborator is modelled as non-throwing, following the
  specification (section 6: a console-equivalent capability set).
-/

/-! ## Mutation Guard: `protectedMutation` (src/RedisClient.js lines 53-79)

The JavaScript source:

```
async protectedMutation(resourceKey, ttl, mutationFn, handleFailedLockRelease = null) {
    const lock = await this.lockManager.lock(resourceKey, ttl);
    const handleUnlock = async () => {
        await lock.unlock().catch(err => {
            if (handleFailedLockRelease) handleFailedLockRelease(err);
            else { this.logger.error({ err }); }
        });
    };
    try {
        const result = await mutationFn();
        await handleUnlock();
        return result;
    } catch (err) {
        await handleUnlock();
        return err;
    }
}
```

The environment `PMEnv` fixes the outcome of each external interaction of
one call: the single `lockManager.lock` attempt, the single `mutationFn()`
run, the outcome of the n-th `lock.unlock()` attempt, and the synchronous
behaviour of the optional `handleFailedLockRelease` callback (`Except.error`
means the callback throws synchronously; an asynchronous rejection of the
callback is fire-and-forget in the source, since its result is not awaited,
so it does not appear in the model).
-/

/-- A JavaScript value fulfilled by `protectedMutation`: either the value
the mutation function resolved to, or the error object it raised,
returned as a value. -/
inductive JsOutcome (α ε : Type) where
  | value : α → JsOutcome α ε
  | raised : ε → JsOutcome α ε
deriving DecidableEq, Repr

/-- Observable events of one `protectedMutation` call. -/
inductive PMEvent (ε : Type) where
  | acquireAttempt : PMEvent ε
  | mutationInvoked : PMEvent ε
  | releaseAttempt : PMEvent ε
  | callbackInvoked : ε → PMEvent ε
  | loggedReleaseError : ε → PMEvent ε
deriving DecidableEq, Repr

/-- Outcomes of the external interactions of one `protectedMutation` call. -/
structure PMEnv (α ε : Type) where
  /-- Outcome of the single `this.lockManager.lock(resourceKey, ttl)` attempt. -/
  lockResult : Except ε Unit
  /-- Outcome of the single `mutationFn()` run (resolution, synchronous
  throw and asynchronous rejection coincide under `await` in `try`). -/
  mutationResult : Except ε α
  /-- Outcome of the n-th `lock.unlock()` attempt (the source can attempt
  release more than once, see `c4_counterexample`). -/
  unlockResult : Nat → Except ε Unit
  /-- The optional `handleFailedLockRelease` callback; `Except.error`
  models a synchronous throw of the callback itself. -/
  onFailedRelease : Option (ε → Except ε Unit)

/-- Embedding of the inner `handleUnlock` closure: awaits
`lock.unlock().catch(handler)` for the given attempt number.  The
`.catch` handler swallows the release error after routing it to the
callback or the logger; only a synchronous throw of the callback escapes
as a rejection of `handleUnlock()`. -/
def handleUnlock {α ε : Type} (env : PMEnv α ε) (attempt : Nat) :
    Except ε Unit × List (PMEvent ε) :=
  match env.unlockResult attempt with
  | .ok _ => (.ok (), [.releaseAttempt])
  | .error e =>
    match env.onFailedRelease with
    | some cb =>
      match cb e with
      | .ok _ => (.ok (), [.releaseAttempt, .callbackInvoked e])
      | .error ce => (.error ce, [.releaseAttempt, .callbackInvoked e])
    | none => (.ok (), [.releaseAttempt, .loggedReleaseError e])

/-- Embedding of `protectedMutation`.  Returns the outcome of the call
(`Except.error` is a rejection of the returned promise) together with the
event trace.  The control flow mirrors the source: a failed acquisition
rejects before the `try`; inside the `try`, a rejection of
`await handleUnlock()` after a successful mutation is caught by the
`catch (err)` block, which runs `handleUnlock()` a second time and then
returns the caught error as a value. -/
def protectedMutation {α ε : Type} (env : PMEnv α ε) :
    Except ε (JsOutcome α ε) × List (PMEvent ε) :=
  match env.lockResult with
  | .error e => (.error e, [.acquireAttempt])
  | .ok _ =>
    match env.mutationResult with
    | .ok v =>
      match handleUnlock env 0 with
      | (.ok _, t1) => (.ok (.value v), .acquireAttempt :: .mutationInvoked :: t1)
      | (.error ce, t1) =>
        match handleUnlock env 1 with
        | (.ok _, t2) =>
          (.ok (.raised ce), .acquireAttempt :: .mutationInvoked :: (t1 ++ t2))
        | (.error ce2, t2) =>
          (.error ce2, .acquireAttempt :: .mutationInvoked :: (t1 ++ t2))
    | .error me =>
      match handleUnlock env 0 with
      | (.ok _, t1) => (.ok (.raised me), .acquireAttempt :: .mutationInvoked :: t1)
      | (.error ce, t1) => (.error ce, .acquireAttempt :: .mutationInvoked :: t1)

/-- The fulfilled value corresponding to a mutation outcome: the resolved
value, or the raised error returned as a value. -/
def jsOutcomeOf {α ε : Type} : Except ε α → JsOutcome α ε
  | .ok v => .value v
  | .error e => .raised e

/-- Recognizer for acquire-attempt events. -/
def isAcquire {ε : Type} : PMEvent ε → Bool
  | .acquireAttempt => true
  | _ => false

/-- Recognizer for release-attempt events. -/
def isRelease {ε : Type} : PMEvent ε → Bool
  | .releaseAttempt => true
  | _ => false

/-- The condition under which the source performs a second release
attempt: the mutation resolved normally, the first release failed, and
the supplied callback threw synchronously (so the rejection of the first
`handleUnlock()` is caught by the `catch` block, which releases again). -/
def secondReleaseHappens {α ε : Type} (env : PMEnv α ε) : Bool :=
  match env.mutationResult, env.unlockResult 0, env.onFailedRelease with
  | .ok _, .error e, some cb =>
    match cb e with
    | .error _ => true
    | .ok _ => false
  | _, _, _ => false

/-- Concrete environment: acquisition succeeds, the mutation resolves with
`7`, release succeeds, no callback supplied. -/
def envC1 : PMEnv Nat Nat :=
  { lockResult := .ok (), mutationResult := .ok 7,
    unlockResult := fun _ => .ok (), onFailedRelease := none }

/-- Concrete environment: acquisition succeeds, the mutation resolves with
`7`, every release attempt fails with `9`, and the supplied callback throws
`e + 4` synchronously when invoked with release error `e`. -/
def envC2x : PMEnv Nat Nat :=
  { lockResult := .ok (), mutationResult := .ok 7,
    unlockResult := fun _ => .error 9,
    onFailedRelease := some fun e => .error (e + 4) }

/-- Concrete environment: acquisition succeeds, the mutation raises `5`,
release fails with `9`, and the supplied callback throws `e + 4`. -/
def envC3x : PMEnv Nat Nat :=
  { lockResult := .ok (), mutationResult := .error 5,
    unlockResult := fun _ => .error 9,
    onFailedRelease := some fun e => .error (e + 4) }

/-- Concrete environment: acquisition succeeds, the mutation resolves with
`3`, release fails with `9`, no callback supplied (release error is logged). -/
def envC3w : PMEnv Nat Nat :=
  { lockResult := .ok (), mutationResult := .ok 3,
    unlockResult := fun _ => .error 9, onFailedRelease := none }

/-- Concrete environment: acquisition succeeds, the mutation resolves with
`7`, the first release attempt fails with `9` but the second succeeds, and
the supplied callback throws `e + 4`. -/
def envC4x : PMEnv Nat Nat :=
  { lockResult := .ok (), mutationResult := .ok 7,
    unlockResult := fun n => if n = 0 then .error 9 else .ok (),
    onFailedRelease := some fun e => .error (e + 4) }

/-! ## Configuration Resolver (src/lib/configUtils.js)

The joi schema validates: `REDIS_URL` a required uri string with scheme
`redis`; `REDIS_CONNECTION_MAX_RETRIES` an optional integer, min 1,
default 10; `REDIS_RETRY_DELAY_MS` an optional integer, default `null`;
`REDIS_WORKERS` an optional integer, default 3; unknown keys allowed.
`parseConfig` throws on validation failure, otherwise returns

```
{ uri, hostname, port,
  retryStrategy: (retries) => {
      if (value.REDIS_RETRY_DELAY_MS) return value.REDIS_RETRY_DELAY_MS;
      return Math.min(retries * 50, 2000);
  },
  maxRetriesPerRequest, workerCount }
```
-/

/-- Raw configuration input.  Optional fields are `none` when the key is
absent; joi then substitutes the schema defaults. -/
structure RedisConfigParam where
  REDIS_URL : String
  REDIS_CONNECTION_MAX_RETRIES : Option Int := none
  REDIS_RETRY_DELAY_MS : Option Int := none
  REDIS_WORKERS : Option Int := none

/-- The parsed configuration object returned by `parseConfig`. -/
structure RedisConfig where
  uri : String
  hostname : String
  port : Option String
  retryStrategy : Nat → Int
  maxRetriesPerRequest : Int
  workerCount : Int

/-- Models the authority extraction of Node `url.parse` for
`redis://host:port` URIs: the text after the scheme up to the first `/`. -/
def authorityOf (uri : String) : String :=
  (uri.drop 8).takeWhile (fun c => c ≠ '/')

/-- Hostname component of a `redis://host:port` URI (Node `url.parse`). -/
def hostnameOf (uri : String) : String :=
  (authorityOf uri).takeWhile (fun c => c ≠ ':')

/-- Port component of a `redis://host:port` URI, as the string Node
`url.parse` reports, `none` when no port is present. -/
def portOf (uri : String) : Option String :=
  let rest := (authorityOf uri).dropWhile (fun c => c ≠ ':')
  if rest.isEmpty then none else some (rest.drop 1)

/-- JavaScript truthiness of the validated `REDIS_RETRY_DELAY_MS` value:
the joi default `null` and the number `0` are falsy, every other integer
is truthy.  This is the test `if (value.REDIS_RETRY_DELAY_MS)` performs. -/
def intOptTruthy : Option Int → Bool
  | none => false
  | some d => d != 0

/-- The configuration object `parseConfig` returns on success, as a
function of the validated input (factored out of `parseConfig` so that
concrete parses have a definitional normal form). -/
def cfgOf (c : RedisConfigParam) : RedisConfig :=
  { uri := c.REDIS_URL
    hostname := hostnameOf c.REDIS_URL
    port := portOf c.REDIS_URL
    retryStrategy := fun retries =>
      if intOptTruthy c.REDIS_RETRY_DELAY_MS then c.REDIS_RETRY_DELAY_MS.getD 0
      else min ((retries : Int) * 50) 2000
    maxRetriesPerRequest := c.REDIS_CONNECTION_MAX_RETRIES.getD 10
    workerCount := c.REDIS_WORKERS.getD 3 }

/-- Embedding of `parseConfig`: joi validation (uri scheme check, minimum
on the retry count; the defaults are substituted in `cfgOf`), then the
construction of the configuration object.  `Except.error` is the thrown
`Config validation error`. -/
def parseConfig (c : RedisConfigParam) : Except String RedisConfig :=
  if ¬ ("redis://".data.isPrefixOf c.REDIS_URL.data) then
    .error "Config validation error: REDIS_URL must be a valid uri with scheme redis"
  else if c.REDIS_CONNECTION_MAX_RETRIES.getD 10 < 1 then
    .error "Config validation error: REDIS_CONNECTION_MAX_RETRIES must be larger than or equal to 1"
  else
    .ok (cfgOf c)

/-- Concrete configuration input with the retry-delay override configured
as `0` — an integer, accepted by the joi schema. -/
def paramZeroDelay : RedisConfigParam :=
  { REDIS_URL := "redis://localhost:6793", REDIS_RETRY_DELAY_MS := some 0 }

/-- Concrete configuration input with a nonzero fixed retry-delay override. -/
def paramFixedDelay : RedisConfigParam :=
  { REDIS_URL := "redis://localhost:6793", REDIS_RETRY_DELAY_MS := some 250 }

/-! ## Connection lifecycle: event handler registration and `shutdown`
(src/RedisClient.js lines 84-99 and 141-150)

`registerRedisEventHandlers` registers `this.connectHandler.bind(this)` (and
likewise for the three other handlers): `bind` produces a fresh function
object, distinct (by JavaScript function identity, which is what
`removeListener` compares with) from the method reference
`this.connectHandler`.  `unregisterRedisEventHandlers` passes the unbound
method references to `removeListener`.  The model distinguishes the two
identities per handler. -/

/-- Function identities that can appear in the listener lists: the four
bound copies produced by `.bind(this)` during registration, and the four
unbound method references passed to `removeListener` during
unregistration. -/
inductive EmitterFn where
  | boundConnectHandler
  | boundReconnectingHandler
  | boundErrorHandler
  | boundLockClientErrorHandler
  | connectHandlerMethod
  | reconnectingHandlerMethod
  | errorHandlerMethod
  | lockClientErrorHandlerMethod
deriving DecidableEq, Repr

/-- The combined listener registrations of the store client and the lock
manager: event name paired with the registered function identity. -/
abbrev Listeners := List (String × EmitterFn)

/-- Embedding of `emitter.on(event, fn)`: appends the listener. -/
def emitterOn (ls : Listeners) (ev : String) (fn : EmitterFn) : Listeners :=
  ls ++ [(ev, fn)]

/-- Embedding of `emitter.removeListener(event, fn)`: removes at most one registration
whose event name and function identity both match. -/
def removeListener (ls : Listeners) (ev : String) (fn : EmitterFn) : Listeners :=
  match ls with
  | [] => []
  | (e, f) :: rest =>
    if e = ev ∧ f = fn then rest else (e, f) :: removeListener rest ev fn

/-- Embedding of `registerRedisEventHandlers`: four `on` calls, each with a
fresh `.bind(this)` copy. -/
def registerRedisEventHandlers (ls : Listeners) : Listeners :=
  emitterOn
    (emitterOn
      (emitterOn
        (emitterOn ls "connect" .boundConnectHandler)
        "reconnecting" .boundReconnectingHandler)
      "error" .boundErrorHandler)
    "clientError" .boundLockClientErrorHandler

/-- Embedding of `unregisterRedisEventHandlers`: four `removeListener`
calls, each passing the unbound method reference (`this.connectHandler`,
not the bound copy that was registered). -/
def unregisterRedisEventHandlers (ls : Listeners) : Listeners :=
  removeListener
    (removeListener
      (removeListener
        (removeListener ls "clientError" .lockClientErrorHandlerMethod)
        "connect" .connectHandlerMethod)
      "reconnecting" .reconnectingHandlerMethod)
    "error" .errorHandlerMethod

/-- The listener lists right after construction (the constructor calls
`registerRedisEventHandlers` once on fresh emitters). -/
def constructionListeners : Listeners := registerRedisEventHandlers []

/-- Embedding of `shutdown`: unregister the listeners first, then close via
`this.lockManager.quit(cb)`; the returned promise resolves when the close
callback reports no error and rejects with the reported error otherwise.
`quitError` is the close outcome the backing store reports. -/
def shutdown (ls : Listeners) (quitError : Option String) :
    Listeners × Except String Unit :=
  (unregisterRedisEventHandlers ls,
    match quitError with
    | some e => .error e
    | none => .ok ())

/-! ## `connectHandler` (src/RedisClient.js lines 104-106)

```
connectHandler() {
    this.logger.info(`Connected to redis ${chalk.green(config.redis.uri)}`);
}
```

The template literal evaluates the bare identifier `config`, which is
resolved against the enclosing scopes.  The module scope of
RedisClient.js binds only the requires and the class; there is no
`config` binding (the instance field is `this.config`, which the body
does not read).  Evaluating an unbound identifier raises a
`ReferenceError` before `logger.info` runs. -/

/-- The identifiers bound at the top level of the RedisClient.js module:
the five requires and the class declaration. -/
def moduleScopeIds : List String :=
  ["Promise", "Redis", "chalk", "Redlock", "parseConfig", "RedisClient"]

/-- A JavaScript runtime error raised while evaluating the handler body. -/
inductive JsRunError where
  | referenceError : String → JsRunError
deriving DecidableEq, Repr

/-- Resolution of a bare identifier against the module scope (the handler
body closes over no other scope that could bind it). -/
def lookupModuleVar (name : String) : Except JsRunError Unit :=
  if moduleScopeIds.contains name then .ok () else .error (.referenceError name)

/-- Embedding of `connectHandler`: evaluate the interpolated expression
`chalk.green(config.redis.uri)` — which begins by resolving the bare
identifier `config` — then emit the info log line.  `logs` is the log
sink; the successful branch appends the message that would be logged. -/
def connectHandler (logs : List String) : Except JsRunError (List String) := do
  lookupModuleVar "config"
  .ok (logs ++ ["Connected to redis <config.redis.uri>"])

/-! ## JSON values, `JSON.stringify` and `JSON.parse`

`get`/`set` (src/RedisClient.js lines 170-185) serialize and parse JSON by
default.  The model of JavaScript JSON values restricts numbers to
integers (the number forms the claims exercise); strings, booleans, null,
arrays and objects are modelled in full, including the escaping
`JSON.stringify` performs (quote, backslash, and the control characters,
the named escapes b, t, n, f, r and the uXXXX form for the rest).
`JSON.parse` is modelled on the grammar `JSON.stringify` emits plus the
escape forms it accepts; insignificant whitespace is omitted because the
compact stringify form used by `set` never emits any. -/

/-- JavaScript JSON values (numbers restricted to integers). -/
inductive Json where
  | null : Json
  | bool : Bool → Json
  | num : Int → Json
  | str : String → Json
  | arr : List Json → Json
  | obj : List (String × Json) → Json

/-- Lower-case hexadecimal digit character for a nibble. -/
def hexDigitChar (n : Nat) : Char :=
  if n < 10 then Char.ofNat (48 + n) else Char.ofNat (87 + n)

/-- Six-character escape of a control character (code point `t < 32`):
a backslash, the letter u, and four lower-case hex digits, of which the
first two are zero. -/
def controlEscape (t : Nat) : List Char :=
  ['\\', 'u', '0', '0', hexDigitChar (t / 16), hexDigitChar (t % 16)]

/-- Escaping of one string character, as `JSON.stringify` performs it. -/
def escapeChar (c : Char) : List Char :=
  if c = '"' then ['\\', '"']
  else if c = '\\' then ['\\', '\\']
  else if c.toNat = 8 then ['\\', 'b']
  else if c.toNat = 9 then ['\\', 't']
  else if c.toNat = 10 then ['\\', 'n']
  else if c.toNat = 12 then ['\\', 'f']
  else if c.toNat = 13 then ['\\', 'r']
  else if c.toNat < 32 then controlEscape c.toNat
  else [c]

/-- Escaping of a whole string body. -/
def escapeList : List Char → List Char
  | [] => []
  | c :: cs => escapeChar c ++ escapeList cs

/-- Decimal digit character. -/
def digitChar (d : Nat) : Char := Char.ofNat (48 + d)

/-- Little-endian decimal digits of `n`; any `fuel ≥ n` computes them in
full and `natDigitsLE 0` is never consulted beyond `fuel = n`. -/
def natDigitsLE : Nat → Nat → List Nat
  | 0, _ => []
  | _ + 1, 0 => []
  | fuel + 1, n + 1 => (n + 1) % 10 :: natDigitsLE fuel ((n + 1) / 10)

/-- Decimal notation of a natural number, as `Number.prototype.toString`
produces it. -/
def natToChars (n : Nat) : List Char :=
  if n = 0 then ['0'] else (natDigitsLE n n).reverse.map digitChar

/-- Decimal notation of an integer (`JSON.stringify` of a number; the
model has no negative zero, matching `JSON.stringify(-0) === "0"`). -/
def intToChars (i : Int) : List Char :=
  if i < 0 then '-' :: natToChars i.natAbs else natToChars i.natAbs

mutual

/-- The text `JSON.stringify(value)` produces, as characters (compact
form, no indent argument — as `set`/`lpush` call it). -/
def stringifyChars : Json → List Char
  | .null => ['n', 'u', 'l', 'l']
  | .bool b => if b then ['t', 'r', 'u', 'e'] else ['f', 'a', 'l', 's', 'e']
  | .num i => intToChars i
  | .str s => '"' :: escapeList s.data ++ ['"']
  | .arr xs => '[' :: itemsChars xs ++ [']']
  | .obj fs => '{' :: membersChars fs ++ ['}']

/-- Comma-separated stringified array elements. -/
def itemsChars : List Json → List Char
  | [] => []
  | [x] => stringifyChars x
  | x :: xs => stringifyChars x ++ ',' :: itemsChars xs

/-- Comma-separated stringified object members (`"key":value`). -/
def membersChars : List (String × Json) → List Char
  | [] => []
  | [(k, v)] => '"' :: escapeList k.data ++ '"' :: ':' :: stringifyChars v
  | (k, v) :: fs =>
    '"' :: escapeList k.data ++ '"' :: ':' :: stringifyChars v ++ ',' :: membersChars fs

end

/-- The string `JSON.stringify(value)` produces. -/
def jsonStringify (v : Json) : String := String.mk (stringifyChars v)

/-- Hexadecimal digit test for the `uXXXX` escape. -/
def isHexDigitChar (c : Char) : Bool :=
  (48 ≤ c.toNat && c.toNat ≤ 57) ||
  (97 ≤ c.toNat && c.toNat ≤ 102) ||
  (65 ≤ c.toNat && c.toNat ≤ 70)

/-- Value of a hexadecimal digit character. -/
def hexVal (c : Char) : Nat :=
  if c.toNat ≤ 57 then c.toNat - 48
  else if c.toNat ≤ 70 then c.toNat - 55
  else c.toNat - 87

/-- Parses the body of a JSON string after the opening quote, undoing the
escapes; returns the decoded characters and the rest of the input after
the closing quote. -/
def parseStringBody : List Char → Option (List Char × List Char)
  | [] => none
  | c :: rest =>
    if c = '"' then some ([], rest)
    else if c = '\\' then
      match rest with
      | [] => none
      | e :: rest2 =>
        if e = '"' || e = '\\' || e = '/' then
          (parseStringBody rest2).map fun p => (e :: p.1, p.2)
        else if e = 'b' then
          (parseStringBody rest2).map fun p => (Char.ofNat 8 :: p.1, p.2)
        else if e = 't' then
          (parseStringBody rest2).map fun p => (Char.ofNat 9 :: p.1, p.2)
        else if e = 'n' then
          (parseStringBody rest2).map fun p => (Char.ofNat 10 :: p.1, p.2)
        else if e = 'f' then
          (parseStringBody rest2).map fun p => (Char.ofNat 12 :: p.1, p.2)
        else if e = 'r' then
          (parseStringBody rest2).map fun p => (Char.ofNat 13 :: p.1, p.2)
        else if e = 'u' then
          match rest2 with
          | h1 :: h2 :: h3 :: h4 :: rest3 =>
            if isHexDigitChar h1 && isHexDigitChar h2 &&
                isHexDigitChar h3 && isHexDigitChar h4 then
              (parseStringBody rest3).map fun p =>
                (Char.ofNat (((hexVal h1 * 16 + hexVal h2) * 16 + hexVal h3) * 16
                    + hexVal h4) :: p.1, p.2)
            else none
          | _ => none
        else none
    else (parseStringBody rest).map fun p => (c :: p.1, p.2)

/-- Consumes leading decimal digits, accumulating the value onto `acc`. -/
def parseDigits (acc : Nat) : List Char → Nat × List Char
  | [] => (acc, [])
  | c :: rest =>
    if c.isDigit then parseDigits (acc * 10 + (c.toNat - 48)) rest
    else (acc, c :: rest)

/-- No leading decimal digit: the condition under which a number token
ends at this point of the input. -/
def noDigitHead : List Char → Bool
  | [] => true
  | c :: _ => !c.isDigit

/-- Parses a JSON number token: at least one decimal digit (the integer
number forms of the model). -/
def parseNumber : List Char → Option (Nat × List Char)
  | [] => none
  | c :: rest =>
    if c.isDigit then some (parseDigits (c.toNat - 48) rest) else none

mutual

/-- Fuel-indexed recursive-descent parser for JSON values.  Each
recursive call spends one unit of fuel; `length + 1` fuel always suffices
for an input `JSON.stringify` produced (see the roundtrip lemmas). -/
def parseVal : Nat → List Char → Option (Json × List Char)
  | 0, _ => none
  | fuel + 1, s =>
    match s with
    | [] => none
    | c :: rest =>
      if c = 'n' then
        match rest with
        | 'u' :: 'l' :: 'l' :: rest2 => some (.null, rest2)
        | _ => none
      else if c = 't' then
        match rest with
        | 'r' :: 'u' :: 'e' :: rest2 => some (.bool true, rest2)
        | _ => none
      else if c = 'f' then
        match rest with
        | 'a' :: 'l' :: 's' :: 'e' :: rest2 => some (.bool false, rest2)
        | _ => none
      else if c = '"' then
        (parseStringBody rest).map fun p => (Json.str (String.mk p.1), p.2)
      else if c = '[' then
        if rest.head? = some ']' then some (.arr [], rest.tail)
        else (parseItems fuel rest).map fun p => (Json.arr p.1, p.2)
      else if c = '{' then
        if rest.head? = some '}' then some (.obj [], rest.tail)
        else (parseMembers fuel rest).map fun p => (Json.obj p.1, p.2)
      else if c = '-' then
        (parseNumber rest).map fun p => (Json.num (-(p.1 : Int)), p.2)
      else if c.isDigit then
        (parseNumber (c :: rest)).map fun p => (Json.num (p.1 : Int), p.2)
      else none

/-- Parses the non-empty comma-separated element list of an array,
including the closing bracket. -/
def parseItems : Nat → List Char → Option (List Json × List Char)
  | 0, _ => none
  | fuel + 1, s =>
    match parseVal fuel s with
    | none => none
    | some (v, r) =>
      if r.head? = some ',' then
        (parseItems fuel r.tail).map fun p => (v :: p.1, p.2)
      else if r.head? = some ']' then some ([v], r.tail)
      else none

/-- Parses the non-empty comma-separated member list of an object,
including the closing brace. -/
def parseMembers : Nat → List Char → Option (List (String × Json) × List Char)
  | 0, _ => none
  | fuel + 1, s =>
    if s.head? = some '"' then
      match parseStringBody s.tail with
      | none => none
      | some (k, r1) =>
        if r1.head? = some ':' then
          match parseVal fuel r1.tail with
          | none => none
          | some (v, r2) =>
            if r2.head? = some ',' then
              (parseMembers fuel r2.tail).map fun p => ((String.mk k, v) :: p.1, p.2)
            else if r2.head? = some '}' then some ([(String.mk k, v)], r2.tail)
            else none
        else none
    else none

end

/-- Embedding of `JSON.parse(res)` as `get` calls it: `res` is the value the store
returned — a string, or null for an absent key, which JavaScript coerces
to the string `"null"` before parsing (so `JSON.parse(null) === null`).
The whole input must be consumed. -/
def jsonParseJS (res : Option String) : Except String Json :=
  let s := match res with
    | none => "null"
    | some s => s
  match parseVal (s.length + 1) s.data with
  | some (v, []) => .ok v
  | some (_, _ :: _) => .error "SyntaxError: Unexpected token in JSON"
  | none => .error "SyntaxError: Unexpected token in JSON"

/-! ## The key-value store and the command wrappers

The backing store (an external collaborator) is modelled as an
association list from keys to stored strings; `storeSet` shadows the
previous binding, which models overwriting SET. -/

/-- The key-value store contents. -/
abbrev Store := List (String × String)

/-- Store read `GET key`: the stored string, or null (`none`) for an absent key. -/
def storeGet : Store → String → Option String
  | [], _ => none
  | (k, v) :: st, key => if k = key then some v else storeGet st key

/-- Store write `SET key value`. -/
def storeSet (st : Store) (key value : String) : Store := (key, value) :: st

/-- Modelled external collaborator: `DEL key [key ...]` requires at least
one key argument; invoked with zero keys the server replies with an arity
error and ioredis rejects the promise.  With keys present it removes them
and replies with the number of keys that existed. -/
def redisDel (st : Store) (keys : List String) : Except String (Store × Nat) :=
  if keys = [] then .error "ERR wrong number of arguments for del command"
  else .ok (st.filter (fun kv => !(keys.contains kv.1)),
    (keys.filter (fun k => (storeGet st k).isSome)).length)

/-- Redis glob-style pattern matching for `MATCH` (the `*` and `?` forms;
character classes are not exercised by any claim). -/
def globMatch : List Char → List Char → Bool
  | [], [] => true
  | [], _ :: _ => false
  | '*' :: p, [] => globMatch p []
  | '*' :: p, c :: s => globMatch p (c :: s) || globMatch ('*' :: p) s
  | '?' :: _, [] => false
  | '?' :: p, _ :: s => globMatch p s
  | _ :: _, [] => false
  | c :: p, d :: s => c = d && globMatch p s

/-- The wire value a non-JSON-mode `set` sends: a string value is sent as
itself.  For the primitives, the string ioredis coerces the argument to
coincides with the JSON text; composite values are not exercised by any
claim and the model uses their JSON text for them as well. -/
def jsToRedisArg : Json → String
  | .str s => s
  | v => jsonStringify v

/-- Embedding of `RedisClient.get(key, json = true)`: reads the stored
value and, in JSON mode, parses it with `JSON.parse` (an absent key
yields null, which parses to null); in raw mode it returns the stored
string, or null for an absent key, unchanged. -/
def RedisClient.get (st : Store) (key : String) (json : Bool := true) :
    Except String Json :=
  let res := storeGet st key
  if json then jsonParseJS res
  else .ok (match res with
    | none => Json.null
    | some s => Json.str s)

/-- Embedding of `RedisClient.set(key, value, json = true)`: in JSON mode
the value is replaced by `JSON.stringify(value)` before the store write. -/
def RedisClient.set (st : Store) (key : String) (value : Json)
    (json : Bool := true) : Store :=
  storeSet st key (if json then jsonStringify value else jsToRedisArg value)

/-- Embedding of `RedisClient.del(...keys)`: forwards the key list to the
store DEL command (the source passes its rest-parameter array through
`this.redis.del(keys)`; ioredis flattens the nested array back into the
individual arguments, so an empty list reaches the server as zero
arguments). -/
def RedisClient.del (st : Store) (keys : List String) :
    Except String (Store × Nat) :=
  redisDel st keys

/-- Embedding of `RedisClient.scan(pattern)`: the keys the MATCH
pattern selects, in store order. -/
def RedisClient.scan (st : Store) (pattern : String) : List String :=
  (st.map Prod.fst).filter (fun k => globMatch pattern.data k.data)

/-- Embedding of `RedisClient.deleteByPattern(pattern)`: scan, then
forward whatever key list came back — including the empty one — to `del`. -/
def RedisClient.deleteByPattern (st : Store) (pattern : String) :
    Except String (Store × Nat) :=
  RedisClient.del st (RedisClient.scan st pattern)

/-- Claim C1. For every call `protectedMutation(resourceKey, ttl, mutationFn)`
— the call shape of the claim, with no `handleFailedLockRelease` supplied —
if lock acquisition succeeds the returned promise fulfills, never rejects,
with the value the mutation resolved to or the error it raised; the call
rejects only when acquisition itself fails, and in that case the mutation
function is never invoked. -/
theorem c1_protectedMutation_fulfills {α ε : Type} (env : PMEnv α ε)
    (hcb : env.onFailedRelease = none) :
    (env.lockResult = .ok () →
      (protectedMutation env).1 = .ok (jsOutcomeOf env.mutationResult) ∧
      PMEvent.mutationInvoked ∈ (protectedMutation env).2) ∧
    (∀ e, env.lockResult = .error e →
      (protectedMutation env).1 = .error e ∧
      PMEvent.mutationInvoked ∉ (protectedMutation env).2) := by
  constructor
  · intro hl
    cases hm : env.mutationResult with
    | ok v =>
      cases hu : env.unlockResult 0 with
      | ok u => simp [protectedMutation, handleUnlock, hl, hm, hu, hcb, jsOutcomeOf]
      | error e0 => simp [protectedMutation, handleUnlock, hl, hm, hu, hcb, jsOutcomeOf]
    | error me =>
      cases hu : env.unlockResult 0 with
      | ok u => simp [protectedMutation, handleUnlock, hl, hm, hu, hcb, jsOutcomeOf]
      | error e0 => simp [protectedMutation, handleUnlock, hl, hm, hu, hcb, jsOutcomeOf]
  · intro e hl
    simp [protectedMutation, hl]

/-- Witness for C1: at `envC1`, the call fulfills with the resolved value and
the mutation ran. -/
theorem c1_witness :
    (protectedMutation envC1).1 = .ok (JsOutcome.value 7) ∧
    PMEvent.mutationInvoked ∈ (protectedMutation envC1).2 :=
  (c1_protectedMutation_fulfills envC1 rfl).1 rfl

/-- Claim C2, counterexample. At `envC2x` — lock acquired, mutation resolved,
release failing, callback throwing — the source performs two release
attempts, refuting "exactly one release attempt per call". -/
theorem c2_counterexample :
    List.countP isRelease (protectedMutation envC2x).2 = 2 ∧ (2 : Nat) ≠ 1 := by
  exact ⟨rfl, by decide⟩

/-- Claim C2, amended. Once the lock is acquired there is exactly one acquire
attempt, and a release is always attempted; the release count is exactly one
except when the mutation resolves normally, the first release fails, and the
supplied `onFailedRelease` callback throws synchronously — in that case the
caught callback error triggers exactly one additional release attempt. -/
theorem c2_amended {α ε : Type} (env : PMEnv α ε) (hl : env.lockResult = .ok ()) :
    List.countP isAcquire (protectedMutation env).2 = 1 ∧
    List.countP isRelease (protectedMutation env).2 =
      (if secondReleaseHappens env then 2 else 1) := by
  cases hm : env.mutationResult with
  | ok v =>
    cases hu : env.unlockResult 0 with
    | ok u =>
      simp [protectedMutation, handleUnlock, secondReleaseHappens, hl, hm, hu,
        isAcquire, isRelease]
    | error e0 =>
      cases hcb : env.onFailedRelease with
      | none =>
        simp [protectedMutation, handleUnlock, secondReleaseHappens, hl, hm, hu,
          hcb, isAcquire, isRelease]
      | some cb =>
        cases hce : cb e0 with
        | ok u =>
          simp [protectedMutation, handleUnlock, secondReleaseHappens, hl, hm,
            hu, hcb, hce, isAcquire, isRelease]
        | error ce =>
          cases hu1 : env.unlockResult 1 with
          | ok u =>
            simp [protectedMutation, handleUnlock, secondReleaseHappens, hl, hm,
              hu, hu1, hcb, hce, isAcquire, isRelease]
          | error e1 =>
            cases hce1 : cb e1 with
            | ok u =>
              simp [protectedMutation, handleUnlock, secondReleaseHappens, hl,
                hm, hu, hu1, hcb, hce, hce1, isAcquire, isRelease]
            | error ce1 =>
              simp [protectedMutation, handleUnlock, secondReleaseHappens, hl,
                hm, hu, hu1, hcb, hce, hce1, isAcquire, isRelease]
  | error me =>
    cases hu : env.unlockResult 0 with
    | ok u =>
      simp [protectedMutation, handleUnlock, secondReleaseHappens, hl, hm, hu,
        isAcquire, isRelease]
    | error e0 =>
      cases hcb : env.onFailedRelease with
      | none =>
        simp [protectedMutation, handleUnlock, secondReleaseHappens, hl, hm, hu,
          hcb, isAcquire, isRelease]
      | some cb =>
        cases hce : cb e0 with
        | ok u =>
          simp [protectedMutation, handleUnlock, secondReleaseHappens, hl, hm,
            hu, hcb, hce, isAcquire, isRelease]
        | error ce =>
          simp [protectedMutation, handleUnlock, secondReleaseHappens, hl, hm,
            hu, hcb, hce, isAcquire, isRelease]

/-- Witness for the amended C2 at `envC2x`: one acquire, two releases. -/
theorem c2_witness :
    List.countP isAcquire (protectedMutation envC2x).2 = 1 ∧
    List.countP isRelease (protectedMutation envC2x).2 = 2 :=
  c2_amended envC2x rfl

/-- Claim C3, counterexample. At `envC3x` the release fails and the supplied
callback is invoked with the release error `9`, but the promise rejects with
the callback error `13` instead of fulfilling with the mutation outcome
(the raised `5`). -/
theorem c3_counterexample :
    (protectedMutation envC3x).1 = .error 13 ∧
    PMEvent.callbackInvoked 9 ∈ (protectedMutation envC3x).2 ∧
    (Except.error 13 : Except Nat (JsOutcome Nat Nat)) ≠
      .ok (JsOutcome.raised 5) := by
  refine ⟨rfl, by decide, by simp⟩

/-- Claim C3, amended. For every call whose release attempt fails: with no
callback supplied the release error is logged and the promise fulfills with
the unchanged mutation outcome; with a callback supplied that does not throw
synchronously, the callback is invoked with the release error and the promise
fulfills with the unchanged mutation outcome. -/
theorem c3_amended {α ε : Type} (env : PMEnv α ε) (e : ε)
    (hl : env.lockResult = .ok ()) (hu : env.unlockResult 0 = .error e) :
    (env.onFailedRelease = none →
      (protectedMutation env).1 = .ok (jsOutcomeOf env.mutationResult) ∧
      PMEvent.loggedReleaseError e ∈ (protectedMutation env).2) ∧
    (∀ cb, env.onFailedRelease = some cb → cb e = .ok () →
      (protectedMutation env).1 = .ok (jsOutcomeOf env.mutationResult) ∧
      PMEvent.callbackInvoked e ∈ (protectedMutation env).2) := by
  constructor
  · intro hcb
    cases hm : env.mutationResult with
    | ok v => simp [protectedMutation, handleUnlock, hl, hm, hu, hcb, jsOutcomeOf]
    | error me => simp [protectedMutation, handleUnlock, hl, hm, hu, hcb, jsOutcomeOf]
  · intro cb hcb hce
    cases hm : env.mutationResult with
    | ok v => simp [protectedMutation, handleUnlock, hl, hm, hu, hcb, hce, jsOutcomeOf]
    | error me => simp [protectedMutation, handleUnlock, hl, hm, hu, hcb, hce, jsOutcomeOf]

/-- Witness for the amended C3 at `envC3w`: release fails, no callback, the
error is logged and the resolved value is still returned. -/
theorem c3_witness :
    (protectedMutation envC3w).1 = .ok (JsOutcome.value 3) ∧
    PMEvent.loggedReleaseError 9 ∈ (protectedMutation envC3w).2 :=
  (c3_amended envC3w 9 rfl rfl).1 rfl

/-- Claim C4, counterexample. At `envC4x` the release fails and the callback
throws `13`, yet the promise fulfills (with the callback error as a value)
rather than rejecting: the mutation had resolved normally, so the thrown
callback error was caught by the outer `catch`, a second release attempt
succeeded, and the caught error was returned as a value. -/
theorem c4_counterexample :
    (protectedMutation envC4x).1 = .ok (JsOutcome.raised 13) ∧
    (Except.ok (JsOutcome.raised 13) : Except Nat (JsOutcome Nat Nat)) ≠
      .error 13 := by
  refine ⟨rfl, by simp⟩

/-- Claim C4, amended. If the first release attempt fails and the supplied
callback throws synchronously: when the mutation had raised an error the
promise rejects with the callback error; when the mutation had resolved
normally the thrown callback error is caught by the outer `catch`, a second
release attempt is performed, and the promise fulfills with the callback
error in place of the mutation value — unless the second release handling
throws again, in which case the promise rejects with that second error. In
every such case the mutation outcome is lost. -/
theorem c4_amended {α ε : Type} (env : PMEnv α ε) (f : ε → Except ε Unit)
    (e0 ce : ε) (hl : env.lockResult = .ok ())
    (hu : env.unlockResult 0 = .error e0)
    (hcb : env.onFailedRelease = some f) (hthrow : f e0 = .error ce) :
    (∀ me, env.mutationResult = .error me →
      (protectedMutation env).1 = .error ce) ∧
    (∀ v, env.mutationResult = .ok v →
      (protectedMutation env).1 =
        (match handleUnlock env 1 with
         | (.ok _, _) => .ok (.raised ce)
         | (.error ce2, _) => .error ce2)) := by
  constructor
  · intro me hm
    simp [protectedMutation, handleUnlock, hl, hm, hu, hcb, hthrow]
  · intro v hm
    cases hu1 : env.unlockResult 1 with
    | ok u =>
      simp [protectedMutation, handleUnlock, hl, hm, hu, hu1, hcb, hthrow]
    | error e1 =>
      cases hce1 : f e1 with
      | ok u =>
        simp [protectedMutation, handleUnlock, hl, hm, hu, hu1, hcb, hce1, hthrow]
      | error ce1 =>
        simp [protectedMutation, handleUnlock, hl, hm, hu, hu1, hcb, hce1, hthrow]

/-- Witness for the amended C4 at `envC4x`: the mutation resolved with `7`,
the callback threw `13`, the second release succeeded, and the promise
fulfilled with the callback error as a value. -/
theorem c4_witness :
    (protectedMutation envC4x).1 = .ok (JsOutcome.raised 13) :=
  (c4_amended envC4x (fun e => .error (e + 4)) 9 13 rfl rfl rfl rfl).2 7 rfl

/-- Claim C5, counterexample. Config parsing accepts a fixed retry-delay
override of `0` (a valid integer for the joi schema), but the produced
strategy ignores it — JS truthiness treats `0` as unset — and returns
`min(1 * 50, 2000) = 50` at attempt 1 instead of the configured `0`. -/
theorem c5_counterexample :
    (parseConfig paramZeroDelay).map (fun cfg => cfg.retryStrategy 1) =
      .ok 50 ∧ (50 : Int) ≠ 0 := by
  exact ⟨rfl, by decide⟩

/-- Claim C5, amended. For every input accepted by config parsing and every
non-negative attempt count n: if a nonzero fixed retry-delay override D was
configured the strategy returns D for every n; if the override is unset — or
configured as 0, which the code treats as unset because 0 is falsy — the
strategy returns min(n * 50, 2000). -/
theorem c5_amended (c : RedisConfigParam) (cfg : RedisConfig)
    (h : parseConfig c = .ok cfg) (n : Nat) :
    (∀ d, c.REDIS_RETRY_DELAY_MS = some d → d ≠ 0 → cfg.retryStrategy n = d) ∧
    ((c.REDIS_RETRY_DELAY_MS = none ∨ c.REDIS_RETRY_DELAY_MS = some 0) →
      cfg.retryStrategy n = min ((n : Int) * 50) 2000) := by
  have hcfg : cfg = cfgOf c := by
    unfold parseConfig at h
    split at h
    · exact absurd h (by simp)
    · split at h
      · exact absurd h (by simp)
      · exact (Except.ok.inj h).symm
  subst hcfg
  constructor
  · intro d hd hdne
    simp [cfgOf, hd, intOptTruthy, hdne]
  · rintro (hd | hd) <;> simp [cfgOf, hd, intOptTruthy]

/-- Witness for the amended C5: with a configured override of 250, the
strategy returns 250 at attempt 4. -/
theorem c5_witness : (cfgOf paramFixedDelay).retryStrategy 4 = 250 :=
  (c5_amended paramFixedDelay (cfgOf paramFixedDelay) rfl 4).1 250 rfl (by decide)

/-- Claim C6. Evaluation of `shutdown()` on a freshly constructed client: the
four `removeListener` calls receive the unbound method references, which
match none of the `.bind(this)` copies that construction registered, so the
listener lists are unchanged — all four handlers remain registered,
contradicting the documented intent ("Unregister event listeners") and the
claim that no registered handler remains.  The close half of the claim does
hold: the promise resolves when the close succeeds and rejects with the
close error otherwise. -/
theorem c6_shutdown_listeners_remain :
    (shutdown constructionListeners none).1 = constructionListeners ∧
    constructionListeners =
      [("connect", .boundConnectHandler),
       ("reconnecting", .boundReconnectingHandler),
       ("error", .boundErrorHandler),
       ("clientError", .boundLockClientErrorHandler)] ∧
    (shutdown constructionListeners none).2 = .ok () ∧
    (shutdown constructionListeners (some "close failed")).2 =
      .error "close failed" := by
  refine ⟨by decide, by decide, rfl, rfl⟩

/-- Claim C7. Evaluation of `connectHandler` at the failing input (any log
sink; the instance plays no role): the handler raises
`ReferenceError: config is not defined` while evaluating the template
literal, before logging anything — it neither logs the configured store URI
nor returns without error. -/
theorem c7_connectHandler_raises :
    connectHandler [] = .error (.referenceError "config") := by
  rfl

/-- Decidable facts about hexadecimal digit characters of nibbles. -/
theorem hexDigit_isHex : ∀ d, d < 16 → isHexDigitChar (hexDigitChar d) = true := by decide

/-- Value of the hexadecimal digit character of a nibble. -/
theorem hexVal_hexDigit : ∀ d, d < 16 → hexVal (hexDigitChar d) = d := by decide

/-- Digit characters are decimal digits. -/
theorem digitChar_isDigit : ∀ d, d < 10 → (digitChar d).isDigit = true := by decide

/-- Code point of a decimal digit character. -/
theorem digitChar_toNat : ∀ d, d < 10 → (digitChar d).toNat = 48 + d := by decide

/-- Digit characters are none of the dispatch characters of the JSON
value grammar. -/
theorem digitChar_ne : ∀ d, d < 10 →
    digitChar d ≠ 'n' ∧ digitChar d ≠ 't' ∧ digitChar d ≠ 'f' ∧
    digitChar d ≠ '"' ∧ digitChar d ≠ '[' ∧ digitChar d ≠ '{' ∧
    digitChar d ≠ '-' ∧ digitChar d ≠ ']' := by decide

/-- String-body step: closing quote. -/
theorem psb_close (X : List Char) : parseStringBody ('"' :: X) = some ([], X) := by
  rw [parseStringBody.eq_def]; simp

/-- String-body step: escaped quote. -/
theorem psb_escQuote (X : List Char) :
    parseStringBody ('\\' :: '"' :: X) =
      (parseStringBody X).map fun p => ('"' :: p.1, p.2) := by
  rw [parseStringBody.eq_def]; simp

/-- String-body step: escaped backslash. -/
theorem psb_escBackslash (X : List Char) :
    parseStringBody ('\\' :: '\\' :: X) =
      (parseStringBody X).map fun p => ('\\' :: p.1, p.2) := by
  rw [parseStringBody.eq_def]; simp

/-- String-body step: escaped backspace. -/
theorem psb_escB (X : List Char) :
    parseStringBody ('\\' :: 'b' :: X) =
      (parseStringBody X).map fun p => (Char.ofNat 8 :: p.1, p.2) := by
  rw [parseStringBody.eq_def]; simp

/-- String-body step: escaped tab. -/
theorem psb_escT (X : List Char) :
    parseStringBody ('\\' :: 't' :: X) =
      (parseStringBody X).map fun p => (Char.ofNat 9 :: p.1, p.2) := by
  rw [parseStringBody.eq_def]; simp

/-- String-body step: escaped newline. -/
theorem psb_escN (X : List Char) :
    parseStringBody ('\\' :: 'n' :: X) =
      (parseStringBody X).map fun p => (Char.ofNat 10 :: p.1, p.2) := by
  rw [parseStringBody.eq_def]; simp

/-- String-body step: escaped form feed. -/
theorem psb_escF (X : List Char) :
    parseStringBody ('\\' :: 'f' :: X) =
      (parseStringBody X).map fun p => (Char.ofNat 12 :: p.1, p.2) := by
  rw [parseStringBody.eq_def]; simp

/-- String-body step: escaped carriage return. -/
theorem psb_escR (X : List Char) :
    parseStringBody ('\\' :: 'r' :: X) =
      (parseStringBody X).map fun p => (Char.ofNat 13 :: p.1, p.2) := by
  rw [parseStringBody.eq_def]; simp

/-- String-body step: uXXXX escape of a control character (the two
leading hex digits are 0). -/
theorem psb_escU (g1 g2 : Char) (X : List Char)
    (hg1 : isHexDigitChar g1 = true) (hg2 : isHexDigitChar g2 = true) :
    parseStringBody ('\\' :: 'u' :: '0' :: '0' :: g1 :: g2 :: X) =
      (parseStringBody X).map fun p =>
        (Char.ofNat (hexVal g1 * 16 + hexVal g2) :: p.1, p.2) := by
  rw [parseStringBody.eq_def]
  have h0 : isHexDigitChar '0' = true := by decide
  have hv0 : hexVal '0' = 0 := by decide
  simp [hg1, hg2, h0, hv0]

/-- String-body step: unescaped character. -/
theorem psb_plain (c : Char) (X : List Char) (hq : c ≠ '"') (hb : c ≠ '\\') :
    parseStringBody (c :: X) = (parseStringBody X).map fun p => (c :: p.1, p.2) := by
  rw [parseStringBody.eq_def]
  simp [hq, hb]

/-- Parsing a string body inverts the escaping. -/
theorem parseStringBody_escape (s : List Char) :
    ∀ rest, parseStringBody (escapeList s ++ '"' :: rest) = some (s, rest) := by
  induction s with
  | nil => intro rest; rw [escapeList, List.nil_append, psb_close]
  | cons c cs ih =>
    intro rest
    rw [escapeList, List.append_assoc]
    unfold escapeChar
    split_ifs with h1 h2 h3 h4 h5 h6 h7 h8
    · subst h1
      simp only [List.cons_append, List.nil_append]
      rw [psb_escQuote, ih]; rfl
    · subst h2
      simp only [List.cons_append, List.nil_append]
      rw [psb_escBackslash, ih]; rfl
    · have hc : Char.ofNat 8 = c := by rw [← h3]; exact Char.ofNat_toNat c
      simp only [List.cons_append, List.nil_append]
      rw [psb_escB, ih, hc]; rfl
    · have hc : Char.ofNat 9 = c := by rw [← h4]; exact Char.ofNat_toNat c
      simp only [List.cons_append, List.nil_append]
      rw [psb_escT, ih, hc]; rfl
    · have hc : Char.ofNat 10 = c := by rw [← h5]; exact Char.ofNat_toNat c
      simp only [List.cons_append, List.nil_append]
      rw [psb_escN, ih, hc]; rfl
    · have hc : Char.ofNat 12 = c := by rw [← h6]; exact Char.ofNat_toNat c
      simp only [List.cons_append, List.nil_append]
      rw [psb_escF, ih, hc]; rfl
    · have hc : Char.ofNat 13 = c := by rw [← h7]; exact Char.ofNat_toNat c
      simp only [List.cons_append, List.nil_append]
      rw [psb_escR, ih, hc]; rfl
    · simp only [controlEscape, List.cons_append, List.nil_append]
      rw [psb_escU _ _ _ (hexDigit_isHex _ (by omega)) (hexDigit_isHex _ (by omega)),
        ih, hexVal_hexDigit _ (by omega), hexVal_hexDigit _ (by omega)]
      rw [show c.toNat / 16 * 16 + c.toNat % 16 = c.toNat by omega, Char.ofNat_toNat]
      rfl
    · simp only [List.singleton_append]
      rw [psb_plain c _ h1 h2, ih]
      rfl

/-- Digits produced by `natDigitsLE` are below 10. -/
theorem natDigitsLE_lt10 : ∀ fuel n d, d ∈ natDigitsLE fuel n → d < 10 := by
  intro fuel
  induction fuel with
  | zero => intro n d h; simp [natDigitsLE] at h
  | succ f ih =>
    intro n d h
    cases n with
    | zero => simp [natDigitsLE] at h
    | succ m =>
      rw [natDigitsLE] at h
      rcases List.mem_cons.mp h with h | h
      · omega
      · exact ih _ _ h

/-- Valuation inverse: `natDigitsLE` evaluates back to its input under the little-endian
decimal valuation. -/
theorem ofLE_natDigitsLE : ∀ fuel n, n ≤ fuel →
    List.foldr (fun d x => x * 10 + d) 0 (natDigitsLE fuel n) = n := by
  intro fuel
  induction fuel with
  | zero => intro n h; interval_cases n; simp [natDigitsLE]
  | succ f ih =>
    intro n h
    cases n with
    | zero => simp [natDigitsLE]
    | succ m =>
      rw [natDigitsLE, List.foldr_cons, ih ((m + 1) / 10) (by omega)]
      omega

/-- Non-emptiness: `natDigitsLE` of a positive number is non-empty. -/
theorem natDigitsLE_ne_nil (m : Nat) : natDigitsLE (m + 1) (m + 1) ≠ [] := by
  rw [natDigitsLE]; simp

/-- Consuming mapped digit characters folds their values onto the
accumulator. -/
theorem parseDigits_append (ds : List Nat) : ∀ a rest, (∀ d ∈ ds, d < 10) →
    parseDigits a (ds.map digitChar ++ rest) =
      parseDigits (List.foldl (fun x d => x * 10 + d) a ds) rest := by
  induction ds with
  | nil => intro a rest _; simp
  | cons d ds ih =>
    intro a rest h
    have hd : d < 10 := h d (by simp)
    simp only [List.map_cons, List.cons_append, List.foldl_cons]
    rw [parseDigits.eq_def]
    simp only [digitChar_isDigit d hd, if_true, digitChar_toNat d hd]
    rw [show 48 + d - 48 = d from by omega]
    exact ih _ _ (fun x hx => h x (by simp [hx]))

/-- The digit parser stops at a non-digit boundary. -/
theorem parseDigits_stop (a : Nat) (rest : List Char)
    (h : noDigitHead rest = true) : parseDigits a rest = (a, rest) := by
  cases rest with
  | nil => rfl
  | cons c r =>
    rw [noDigitHead] at h
    rw [parseDigits.eq_def]
    simp at h
    simp [h]

/-- The number parser inverts decimal notation of naturals. -/
theorem parseNumber_natToChars (n : Nat) (rest : List Char)
    (hrest : noDigitHead rest = true) :
    parseNumber (natToChars n ++ rest) = some (n, rest) := by
  cases n with
  | zero =>
    rw [natToChars, if_pos rfl]
    simp only [List.singleton_append]
    rw [parseNumber.eq_def]
    simp only [show ('0' : Char).isDigit = true from by decide, if_true]
    rw [show ('0' : Char).toNat - 48 = 0 from by decide]
    rw [parseDigits_stop _ _ hrest]
  | succ m =>
    rw [natToChars, if_neg (by omega)]
    obtain ⟨d, ds, hds⟩ : ∃ d ds, (natDigitsLE (m + 1) (m + 1)).reverse = d :: ds := by
      cases hrev : (natDigitsLE (m + 1) (m + 1)).reverse with
      | nil => exact absurd (List.reverse_eq_nil_iff.mp hrev) (natDigitsLE_ne_nil m)
      | cons d ds => exact ⟨d, ds, rfl⟩
    have hmem : ∀ x ∈ d :: ds, x < 10 := by
      intro x hx
      rw [← hds] at hx
      exact natDigitsLE_lt10 _ _ x (List.mem_reverse.mp hx)
    have hval : List.foldl (fun x y => x * 10 + y) 0 (d :: ds) = m + 1 := by
      rw [← hds, List.foldl_reverse]
      exact ofLE_natDigitsLE (m + 1) (m + 1) le_rfl
    rw [hds]
    have hd : d < 10 := hmem d (by simp)
    simp only [List.map_cons, List.cons_append]
    rw [parseNumber.eq_def]
    simp only [digitChar_isDigit d hd, if_true, digitChar_toNat d hd]
    rw [show 48 + d - 48 = d from by omega]
    rw [parseDigits_append ds d rest (fun x hx => hmem x (by simp [hx]))]
    rw [parseDigits_stop _ _ hrest]
    have : List.foldl (fun x y => x * 10 + y) d ds = m + 1 := by
      rw [← hval]; simp [List.foldl_cons]
    rw [this]

/-- Decimal notation starts with a digit character. -/
theorem natToChars_head (n : Nat) :
    ∃ d cs, natToChars n = digitChar d :: cs ∧ d < 10 := by
  cases n with
  | zero => exact ⟨0, [], rfl, by omega⟩
  | succ m =>
    obtain ⟨d, ds, hds⟩ : ∃ d ds, (natDigitsLE (m + 1) (m + 1)).reverse = d :: ds := by
      cases hrev : (natDigitsLE (m + 1) (m + 1)).reverse with
      | nil => exact absurd (List.reverse_eq_nil_iff.mp hrev) (natDigitsLE_ne_nil m)
      | cons d ds => exact ⟨d, ds, rfl⟩
    refine ⟨d, ds.map digitChar, ?_, ?_⟩
    · rw [natToChars, if_neg (by omega), hds, List.map_cons]
    · exact natDigitsLE_lt10 _ _ d (List.mem_reverse.mp (by rw [hds]; simp))

/-- Stringified values are non-empty and never start with a closing
bracket. -/
theorem stringifyChars_cons (v : Json) :
    ∃ c cs, stringifyChars v = c :: cs ∧ c ≠ ']' := by
  cases v with
  | null => exact ⟨'n', _, rfl, by decide⟩
  | bool b => cases b with
    | true => exact ⟨'t', _, rfl, by decide⟩
    | false => exact ⟨'f', _, rfl, by decide⟩
  | num i =>
    by_cases hneg : i < 0
    · exact ⟨'-', _, by rw [stringifyChars, intToChars, if_pos hneg], by decide⟩
    · obtain ⟨d, cs, hd, hlt⟩ := natToChars_head i.natAbs
      exact ⟨digitChar d, cs, by rw [stringifyChars, intToChars, if_neg hneg, hd],
        (digitChar_ne d hlt).2.2.2.2.2.2.2⟩
  | str s => exact ⟨'"', _, rfl, by decide⟩
  | arr xs => exact ⟨'[', _, rfl, by decide⟩
  | obj fs => exact ⟨'{', _, rfl, by decide⟩

/-- Value-parser step: null literal. -/
theorem pv_null (fuel : Nat) (X : List Char) :
    parseVal (fuel + 1) ('n' :: 'u' :: 'l' :: 'l' :: X) = some (.null, X) := rfl

/-- Value-parser step: true literal. -/
theorem pv_true (fuel : Nat) (X : List Char) :
    parseVal (fuel + 1) ('t' :: 'r' :: 'u' :: 'e' :: X) = some (.bool true, X) := rfl

/-- Value-parser step: false literal. -/
theorem pv_false (fuel : Nat) (X : List Char) :
    parseVal (fuel + 1) ('f' :: 'a' :: 'l' :: 's' :: 'e' :: X) =
      some (.bool false, X) := rfl

/-- Value-parser step: string. -/
theorem pv_str (fuel : Nat) (X : List Char) :
    parseVal (fuel + 1) ('"' :: X) =
      (parseStringBody X).map fun p => (Json.str (String.mk p.1), p.2) := rfl

/-- Value-parser step: array. -/
theorem pv_arr (fuel : Nat) (X : List Char) :
    parseVal (fuel + 1) ('[' :: X) =
      if X.head? = some ']' then some (.arr [], X.tail)
      else (parseItems fuel X).map fun p => (Json.arr p.1, p.2) := rfl

/-- Value-parser step: object. -/
theorem pv_obj (fuel : Nat) (X : List Char) :
    parseVal (fuel + 1) ('{' :: X) =
      if X.head? = some '}' then some (.obj [], X.tail)
      else (parseMembers fuel X).map fun p => (Json.obj p.1, p.2) := rfl

/-- Value-parser step: negative number. -/
theorem pv_neg (fuel : Nat) (X : List Char) :
    parseVal (fuel + 1) ('-' :: X) =
      (parseNumber X).map fun p => (Json.num (-(p.1 : Int)), p.2) := rfl

/-- Item-parser step, given the element parse. -/
theorem pi_step (fuel : Nat) (s : List Char) (v : Json) (r : List Char)
    (h : parseVal fuel s = some (v, r)) :
    parseItems (fuel + 1) s =
      if r.head? = some ',' then
        (parseItems fuel r.tail).map fun p => (v :: p.1, p.2)
      else if r.head? = some ']' then some ([v], r.tail)
      else none := by
  simp only [parseItems, h]

/-- Member-parser step, given the key and value parses. -/
theorem pm_step (fuel : Nat) (X : List Char) (k : List Char) (r1 : List Char)
    (v : Json) (r2 : List Char)
    (hk : parseStringBody X = some (k, r1)) (hr1 : r1.head? = some ':')
    (hv : parseVal fuel r1.tail = some (v, r2)) :
    parseMembers (fuel + 1) ('"' :: X) =
      if r2.head? = some ',' then
        (parseMembers fuel r2.tail).map fun p => ((String.mk k, v) :: p.1, p.2)
      else if r2.head? = some '}' then some ([(String.mk k, v)], r2.tail)
      else none := by
  simp only [parseMembers, List.head?_cons, List.tail_cons, Option.some.injEq,
    reduceIte]
  rw [hk]
  simp only [hr1, hv]
  simp

/-- Main roundtrip: with fuel at least the length of the stringified text,
the value parser inverts the stringifier (and the item and member parsers
invert the element and member serializations, with one extra unit of fuel
for the closing bracket step).  The continuation `rest` may be anything
that does not extend a number token. -/
theorem parse_stringify (fuel : Nat) :
    (∀ v rest, noDigitHead rest = true → (stringifyChars v).length ≤ fuel →
      parseVal fuel (stringifyChars v ++ rest) = some (v, rest)) ∧
    (∀ xs rest, xs ≠ [] → (itemsChars xs).length + 1 ≤ fuel →
      parseItems fuel (itemsChars xs ++ ']' :: rest) = some (xs, rest)) ∧
    (∀ fs rest, fs ≠ [] → (membersChars fs).length + 1 ≤ fuel →
      parseMembers fuel (membersChars fs ++ '}' :: rest) = some (fs, rest)) := by
  induction fuel with
  | zero =>
    refine ⟨?_, ?_, ?_⟩
    · intro v rest _ hlen
      obtain ⟨c, cs, hc, _⟩ := stringifyChars_cons v
      rw [hc] at hlen
      simp at hlen
    · intro xs rest _ hlen; omega
    · intro fs rest _ hlen; omega
  | succ fuel ih =>
    obtain ⟨ihv, ihi, ihm⟩ := ih
    refine ⟨?_, ?_, ?_⟩
    · intro v rest hrest hlen
      cases v with
      | null =>
        simp only [stringifyChars, List.cons_append, List.nil_append]
        exact pv_null fuel rest
      | bool b =>
        cases b with
        | true =>
          simp only [stringifyChars, reduceIte, List.cons_append, List.nil_append]
          exact pv_true fuel rest
        | false =>
          simp only [stringifyChars, reduceIte, List.cons_append, List.nil_append]
          exact pv_false fuel rest
      | str s =>
        simp only [stringifyChars, List.cons_append, List.append_assoc,
          List.singleton_append]
        rw [pv_str, parseStringBody_escape]
        rfl
      | num i =>
        by_cases hneg : i < 0
        · simp only [stringifyChars, intToChars, if_pos hneg, List.cons_append]
          rw [pv_neg, parseNumber_natToChars i.natAbs rest hrest]
          have hi : -((i.natAbs : Nat) : Int) = i := by omega
          show some (Json.num (-((i.natAbs : Nat) : Int)), rest) = some (Json.num i, rest)
          rw [hi]
        · simp only [stringifyChars, intToChars, if_neg hneg]
          obtain ⟨d, cs, hd, hlt⟩ := natToChars_head i.natAbs
          have hstep : parseVal (fuel + 1) (natToChars i.natAbs ++ rest) =
              (parseNumber (natToChars i.natAbs ++ rest)).map
                fun p => (Json.num (p.1 : Int), p.2) := by
            rw [hd, List.cons_append]
            interval_cases d <;> rfl
          rw [hstep, parseNumber_natToChars i.natAbs rest hrest]
          have hi : ((i.natAbs : Nat) : Int) = i := by omega
          show some (Json.num ((i.natAbs : Nat) : Int), rest) = some (Json.num i, rest)
          rw [hi]
      | arr xs =>
        cases xs with
        | nil =>
          simp only [stringifyChars, itemsChars, List.cons_append, List.nil_append]
          rw [pv_arr]
          simp
        | cons x xs =>
          obtain ⟨c0, cs0, hc0, hne0⟩ := stringifyChars_cons x
          have hhead : (itemsChars (x :: xs) ++ ']' :: rest).head? = some c0 := by
            cases xs with
            | nil => simp [itemsChars, hc0]
            | cons y ys => simp [itemsChars, hc0]
          have hlen2 : (itemsChars (x :: xs)).length + 1 ≤ fuel := by
            simp only [stringifyChars] at hlen
            simp at hlen
            omega
          have hi := ihi (x :: xs) rest (List.cons_ne_nil _ _) hlen2
          simp only [stringifyChars, List.cons_append, List.append_assoc,
            List.singleton_append, List.nil_append]
          rw [pv_arr, hhead, if_neg (by simp [hne0]), hi]
          rfl
      | obj fs =>
        cases fs with
        | nil =>
          simp only [stringifyChars, membersChars, List.cons_append, List.nil_append]
          rw [pv_obj]
          simp
        | cons kv fs =>
          have hhead : (membersChars (kv :: fs) ++ '}' :: rest).head? = some '"' := by
            obtain ⟨k, v⟩ := kv
            cases fs with
            | nil => simp [membersChars]
            | cons kv2 fs2 => simp [membersChars]
          have hlen2 : (membersChars (kv :: fs)).length + 1 ≤ fuel := by
            simp only [stringifyChars] at hlen
            simp at hlen
            omega
          have hm := ihm (kv :: fs) rest (List.cons_ne_nil _ _) hlen2
          simp only [stringifyChars, List.cons_append, List.append_assoc,
            List.singleton_append, List.nil_append]
          rw [pv_obj, hhead, if_neg (by simp), hm]
          rfl
    · intro xs rest hne hlen
      cases xs with
      | nil => exact absurd rfl hne
      | cons x xs =>
        cases xs with
        | nil =>
          simp only [itemsChars] at hlen ⊢
          have h1 : (stringifyChars x).length ≤ fuel := by omega
          have hv := ihv x (']' :: rest) rfl h1
          rw [pi_step fuel _ x (']' :: rest) hv]
          simp
        | cons y ys =>
          simp only [itemsChars] at hlen ⊢
          have hlx : (stringifyChars x).length ≤ fuel := by
            simp at hlen; omega
          have hly : (itemsChars (y :: ys)).length + 1 ≤ fuel := by
            simp at hlen; omega
          rw [List.append_assoc, List.cons_append]
          have hv := ihv x (',' :: (itemsChars (y :: ys) ++ ']' :: rest)) rfl hlx
          rw [pi_step fuel _ x _ hv]
          simp only [List.head?_cons, List.tail_cons, reduceIte]
          rw [ihi (y :: ys) rest (List.cons_ne_nil _ _) hly]
          rfl
    · intro fs rest hne hlen
      cases fs with
      | nil => exact absurd rfl hne
      | cons kv fs =>
        obtain ⟨k, v⟩ := kv
        cases fs with
        | nil =>
          simp only [membersChars] at hlen ⊢
          simp only [List.cons_append, List.append_assoc]
          have h1 : (stringifyChars v).length ≤ fuel := by
            simp at hlen; omega
          have hkey := parseStringBody_escape k.data
            (':' :: (stringifyChars v ++ '}' :: rest))
          have hv := ihv v ('}' :: rest) rfl h1
          rw [pm_step fuel _ k.data _ v ('}' :: rest) hkey rfl hv]
          simp
        | cons kv2 fs2 =>
          simp only [membersChars] at hlen ⊢
          have h1 : (stringifyChars v).length ≤ fuel := by
            simp at hlen; omega
          have h2 : (membersChars (kv2 :: fs2)).length + 1 ≤ fuel := by
            simp at hlen; omega
          simp only [List.cons_append, List.append_assoc]
          have hkey := parseStringBody_escape k.data
            (':' :: (stringifyChars v ++ ',' :: (membersChars (kv2 :: fs2) ++ '}' :: rest)))
          have hv := ihv v (',' :: (membersChars (kv2 :: fs2) ++ '}' :: rest)) rfl h1
          rw [pm_step fuel _ k.data _ v _ hkey rfl hv]
          simp only [List.head?_cons, List.tail_cons, reduceIte]
          rw [ihm (kv2 :: fs2) rest (List.cons_ne_nil _ _) h2]
          rfl

/-- Parsing inverts stringification at the `JSON.parse` entry point. -/
theorem jsonParseJS_stringify (v : Json) :
    jsonParseJS (some (jsonStringify v)) = .ok v := by
  have h := (parse_stringify ((stringifyChars v).length + 1)).1 v [] rfl (by omega)
  rw [List.append_nil] at h
  have hstep : jsonParseJS (some (jsonStringify v)) =
      (match parseVal ((stringifyChars v).length + 1) (stringifyChars v) with
       | some (w, []) => Except.ok w
       | some (_, _ :: _) => Except.error "SyntaxError: Unexpected token in JSON"
       | none => Except.error "SyntaxError: Unexpected token in JSON") := rfl
  rw [hstep, h]

/-- Reading back the key just written returns the stored string. -/
theorem storeGet_storeSet (st : Store) (k s : String) :
    storeGet (storeSet st k s) k = some s := by
  simp [storeGet, storeSet]

/-- Claim C8. For every store, key and JSON value: `set(k, v)` followed by
`get(k)` in the default JSON mode returns a value equal to `v`, and
`get(k)` with the raw override returns exactly the JSON text
`JSON.stringify(v)` (for example, after `set("k", {v:1})` the raw read
returns the literal text with the quoted key and the numeral). -/
theorem c8_set_get_roundtrip (st : Store) (k : String) (v : Json) :
    RedisClient.get (RedisClient.set st k v true) k true = .ok v ∧
    RedisClient.get (RedisClient.set st k v true) k false =
      .ok (Json.str (jsonStringify v)) := by
  constructor
  · show jsonParseJS (storeGet (storeSet st k (jsonStringify v)) k) = .ok v
    rw [storeGet_storeSet]
    exact jsonParseJS_stringify v
  · show Except.ok (match storeGet (storeSet st k (jsonStringify v)) k with
        | none => Json.null
        | some s => Json.str s) = .ok (Json.str (jsonStringify v))
    rw [storeGet_storeSet]

/-- Claim C9. For every key absent from the store, `get` in the default JSON
mode resolves with null: the store returns its null sentinel, JavaScript
coerces it to the string "null", and `JSON.parse` yields null rather than
raising or rejecting. -/
theorem c9_get_absent_null (st : Store) (k : String) (h : storeGet st k = none) :
    RedisClient.get st k true = .ok Json.null := by
  show jsonParseJS (storeGet st k) = .ok Json.null
  rw [h]
  rfl

/-- Witness for C9: reading any key of the empty store yields null. -/
theorem c9_witness : RedisClient.get ([] : Store) "k" true = .ok Json.null :=
  c9_get_absent_null [] "k" rfl

/-- Claim C10. For every pattern that matches zero keys, `deleteByPattern`
still forwards the empty key list to the delete command, so the call
rejects with the arity error of the store rather than resolving as a
no-op. -/
theorem c10_deleteByPattern_empty_scan (st : Store) (pattern : String)
    (h : RedisClient.scan st pattern = []) :
    RedisClient.deleteByPattern st pattern = RedisClient.del st [] ∧
    RedisClient.deleteByPattern st pattern =
      .error "ERR wrong number of arguments for del command" := by
  constructor
  · show RedisClient.del st (RedisClient.scan st pattern) = _
    rw [h]
  · show RedisClient.del st (RedisClient.scan st pattern) = _
    rw [h]
    rfl

/-- Witness for C10: on the empty store no key matches, and the call
rejects with the arity error. -/
theorem c10_witness :
    RedisClient.deleteByPattern ([] : Store) "k*" =
      .error "ERR wrong number of arguments for del command" :=
  (c10_deleteByPattern_empty_scan [] "k*" rfl).2
